import Mathlib

/-!
NeuraFlow: registration and dual-channel routing.

A shallow embedding of the broker (`src/broker/broker.cpp`), the communication
node (`src/core/neura_ipc.hpp`) and the worker lifecycle node
(`src/core/service_node.hpp`), followed by the properties proved about them.

Conventions of the embedding

* a `std::string` is a `CppString`, a finite list of characters, one `Char` per
  C++ `char` (a `std::string` may hold NUL characters, so may a `CppString`);
* an `int` is an `Int` kept in the 32-bit two's complement range by `wrap_int`;
  `std::atomic<int>::operator++` wraps around and has no undefined result;
* a `std::unordered_map<std::string, V>` is an association list with at most
  one entry per key, read with `UMap.find` and written with `UMap.assign`
  (the `m[k] = v` of the source);
* log output (`std::cout`, `std::cerr`) is not modelled;
* callbacks may have effects: a callback is a function on an application
  state `σ` that is threaded through the code that invokes it.
-/

namespace NeuraFlow

/-! ## Strings -/

/-- A `std::string`: a finite sequence of `char`. -/
abbrev CppString := List Char

/-- Decimal digits of a natural number, most significant first; `"0"` for zero. -/
def decimal (n : Nat) : CppString :=
  if n = 0 then ['0'] else ((Nat.digits 10 n).map Nat.digitChar).reverse

/-- The function `std::to_string(int)`: the `%d` rendering of a signed integer. -/
def to_string (i : Int) : CppString :=
  if i < 0 then '-' :: decimal i.natAbs else decimal i.toNat

/-- Whether `pat` occurs in `s` starting at the first character of `s`. -/
def starts_with (pat s : CppString) : Bool := pat.isPrefixOf s

/-- The function `std::string::find(pat)`: the least position at which `pat` occurs in
`s`, and `none` for `std::string::npos`. -/
def find : CppString → CppString → Option Nat
  | [], pat => if starts_with pat [] then some 0 else none
  | c :: s, pat =>
    if starts_with pat (c :: s) then some 0
    else (find s pat).map (· + 1)

/-! ## 32-bit integers -/

/-- The least `int`. -/
def INT_MIN : Int := -2147483648

/-- The greatest `int`. -/
def INT_MAX : Int := 2147483647

/-- Reduction of an integer to the 32-bit two's complement range. -/
def wrap_int (z : Int) : Int := (z + 2147483648) % 4294967296 - 2147483648

/-! ## Unordered maps keyed by strings -/

/-- A `std::unordered_map<std::string, β>`. -/
abbrev UMap (β : Type) := List (CppString × β)

/-- The value stored under `k`, if any (`m.count(k)` is nonzero exactly when this is
`some`). -/
def UMap.find {β : Type} : UMap β → CppString → Option β
  | [], _ => none
  | (k', v) :: m, k => if k' = k then some v else UMap.find m k

/-- The assignment `m[k] = v`: overwrite the entry of `k`, or insert one. -/
def UMap.assign {β : Type} : UMap β → CppString → β → UMap β
  | [], k, v => [(k, v)]
  | (k', v') :: m, k, v => if k' = k then (k, v) :: m else (k', v') :: UMap.assign m k v

/-- The keys of a map, in storage order. -/
def UMap.keys {β : Type} (m : UMap β) : List CppString := m.map Prod.fst

/-! ## The broker (`src/broker/broker.cpp`) -/

/-- The state of a `ServiceBroker` that `handle_registration` reads and writes. -/
structure ServiceBroker where
  /-- The identity the next registration will receive (`std::atomic<int>`). -/
  next_worker_id_ : Int
  /-- The registry: service name to allocated stream address. -/
  routes_ : UMap CppString

/-- The constructor `ServiceBroker::ServiceBroker`: the counter starts at 100, the
registry is empty. -/
def ServiceBroker.new : ServiceBroker :=
  { next_worker_id_ := 100, routes_ := [] }

/-- The literal `"ipc:///tmp/neura.stream."` of `handle_registration`. -/
def stream_addr_base : CppString := "ipc:///tmp/neura.stream.".toList

/-- The method `ServiceBroker::handle_registration`: returns the allocated address and
the broker state after the call. -/
def handle_registration (b : ServiceBroker) (service_name : CppString) :
    CppString × ServiceBroker :=
  -- int id = next_worker_id_++;
  let id := b.next_worker_id_
  let next := wrap_int (b.next_worker_id_ + 1)
  let worker_stream_addr := stream_addr_base ++ to_string id
  -- routes_[service_name] = worker_stream_addr;
  (worker_stream_addr,
    { next_worker_id_ := next,
      routes_ := b.routes_.assign service_name worker_stream_addr })

/-- The broker state after a sequence of registration calls, one per name. -/
def register_all (b : ServiceBroker) : List CppString → ServiceBroker
  | [] => b
  | n :: ns => register_all (handle_registration b n).2 ns

/-- The identity read at line 52 and the address returned, for each call of a
sequence of registration calls. -/
def registrations (b : ServiceBroker) : List CppString → List (Int × CppString)
  | [] => []
  | n :: ns =>
    (b.next_worker_id_, (handle_registration b n).1) ::
      registrations (handle_registration b n).2 ns

/-- The identities allocated by a sequence of registration calls. -/
def allocated_ids (b : ServiceBroker) (names : List CppString) : List Int :=
  (registrations b names).map Prod.fst

/-- The addresses returned by a sequence of registration calls. -/
def allocated_addrs (b : ServiceBroker) (names : List CppString) : List CppString :=
  (registrations b names).map Prod.snd

/-! ## The transport (`zmq_recv`, `std::string(buf, len)`) -/

/-- A zero-filled array of `n` characters (`char buf[n] = {0}`, `std::vector<char>(n)`). -/
def zero_buffer (n : Nat) : CppString := List.replicate n (Char.ofNat 0)

/-- The call `zmq_recv(sock, buf, len, 0)` when the next message on the socket is `msg`
(`none`: the call fails). On success the first `min(len, size)` characters of the message
are copied to `buf` and the size of the whole message is returned, also when the message
was truncated; on failure `-1` is returned and `buf` is left alone. -/
def zmq_recv (msg : Option CppString) (buf : CppString) (len : Nat) : Int × CppString :=
  match msg with
  | none => (-1, buf)
  | some m => ((m.length : Int), m.take len ++ buf.drop (min m.length len))

/-- The constructor `std::string(buf, len)` on an array `buf`: its first `len` characters;
`none` when `len` exceeds the array, where the read is undefined. -/
def string_of_buffer (buf : CppString) (len : Nat) : Option CppString :=
  if len ≤ buf.length then some (buf.take len) else none

/-- What the transport does during one `IPCNode::call`. -/
structure Transport where
  /-- The result of `zmq_connect`. -/
  connect_rc : Int
  /-- The reply frame the server sends; `none` when `zmq_recv` fails. -/
  reply : Option CppString

/-! ## The communication node (`src/core/neura_ipc.hpp`) -/

/-- The type `RpcCallback`: payload to reply, with its effect on the application state. -/
abbrev RpcCallback (σ : Type) := CppString → σ → CppString × σ

/-- The type `StreamCallback`: a consumer of one payload. -/
abbrev StreamCallback (σ : Type) := CppString → σ → σ

/-- The fields of an `IPCNode` (a socket is represented by the address it is bound to). -/
structure IPCNode (σ : Type) where
  rpc_socket_ : Option CppString
  stream_socket_ : Option CppString
  running_ : Bool
  rpc_map_ : UMap (RpcCallback σ)
  stream_cb_ : Option (StreamCallback σ)

/-- The constructor `IPCNode::IPCNode`. -/
def IPCNode.new {σ : Type} : IPCNode σ :=
  { rpc_socket_ := none, stream_socket_ := none, running_ := false,
    rpc_map_ := [], stream_cb_ := none }

/-- The method `IPCNode::start_rpc_server`; `bind_rc` is the result of `zmq_bind`, and
`none` is `exit(1)`. -/
def start_rpc_server {σ : Type} (node : IPCNode σ) (bind_rc : Int) (address : CppString) :
    Option (IPCNode σ) :=
  if bind_rc ≠ 0 then none
  else some { node with rpc_socket_ := some address, running_ := true }

/-- The method `IPCNode::register_rpc`. -/
def register_rpc {σ : Type} (node : IPCNode σ) (action : CppString) (cb : RpcCallback σ) :
    IPCNode σ :=
  { node with rpc_map_ := node.rpc_map_.assign action cb }

/-- The static method `IPCNode::call`. The result is `none` when the code reads past the
end of `buf`. -/
def call (env : Transport) (_address _action _data : CppString) : Option CppString :=
  -- int rc = zmq_connect(sock, address.c_str());
  if env.connect_rc ≠ 0 then some "ERROR: Connect failed".toList
  else
    -- char buf[4096] = {0}; int len = zmq_recv(sock, buf, sizeof(buf) - 1, 0);
    let r := zmq_recv env.reply (zero_buffer 4096) (4096 - 1)
    if r.1 < 0 then some "ERROR: Recv failed".toList
    else string_of_buffer r.2 r.1.toNat

/-- The method `IPCNode::start_stream_receiver`; `bind_rc` is the result of `zmq_bind`,
and `none` is `exit(1)`. -/
def start_stream_receiver {σ : Type} (node : IPCNode σ) (bind_rc : Int)
    (address : CppString) (cb : StreamCallback σ) : Option (IPCNode σ) :=
  if bind_rc ≠ 0 then none
  else some { node with stream_socket_ := some address, stream_cb_ := some cb,
                        running_ := true }

/-- The result of the receiving part of a loop iteration. -/
inductive Recv (α : Type) where
  /-- A read past the end of a buffer: undefined behaviour. -/
  | fault : Recv α
  /-- The first `zmq_recv` failed: the loop breaks. -/
  | closed : Recv α
  /-- The iteration goes on with what was received. -/
  | got : α → Recv α

/-- One control exchange as it arrives at the server socket. -/
structure Request where
  /-- The first frame; `none` when `zmq_recv` fails. -/
  action : Option CppString
  /-- The option `ZMQ_RCVMORE` after the first frame. -/
  more : Bool
  /-- The second frame, read only when `more`; `none` when `zmq_recv` fails. -/
  payload : Option CppString

/-- Steps 1 and 2 of an iteration of `rpc_loop`, and the construction of `action`
from `action_buf`: the action and the data the iteration dispatches. -/
def recv_request (req : Request) : Recv (CppString × CppString) :=
  -- char action_buf[256] = {0};
  -- int len = zmq_recv(rpc_socket_, action_buf, sizeof(action_buf) - 1, 0);
  let a := zmq_recv req.action (zero_buffer 256) (256 - 1)
  if a.1 < 0 then Recv.closed
  else
    -- std::string data = "";
    let data : Option CppString :=
      if req.more then
        -- std::vector<char> buffer(1024 * 1024);
        let d := zmq_recv req.payload (zero_buffer (1024 * 1024)) (1024 * 1024)
        if d.1 > 0 then string_of_buffer d.2 d.1.toNat else some []
      else some []
    -- std::string action(action_buf, len);
    match data, string_of_buffer a.2 a.1.toNat with
    | some data, some action => Recv.got (action, data)
    | _, _ => Recv.fault

/-- Step 3 of an iteration of `rpc_loop`: the response, and the application state after
the callback, if one ran. The map is read, never written: `rpc_map_[action]` is reached
only when `rpc_map_.count(action)` is nonzero. -/
def rpc_dispatch {σ : Type} (rpc_map_ : UMap (RpcCallback σ)) (action data : CppString)
    (st : σ) : CppString × σ :=
  -- std::string response = "ERROR: Action not found";
  match rpc_map_.find action with
  | some cb => cb data st
  | none => ("ERROR: Action not found".toList, st)

/-- One iteration of `rpc_loop`: the response sent and the application state. -/
def rpc_loop_body {σ : Type} (node : IPCNode σ) (req : Request) (st : σ) :
    Recv (CppString × σ) :=
  match recv_request req with
  | Recv.fault => Recv.fault
  | Recv.closed => Recv.closed
  | Recv.got (action, data) => Recv.got (rpc_dispatch node.rpc_map_ action data st)

/-- The method `IPCNode::rpc_loop` run on the exchanges that arrive, in order: the
responses sent and the final application state; `none` on undefined behaviour. When no
exchange is left the loop is blocked in `zmq_recv`. -/
def rpc_loop {σ : Type} (node : IPCNode σ) : List Request → σ → Option (List CppString × σ)
  | [], st => some ([], st)
  | req :: rest, st =>
    if node.running_ then
      match rpc_loop_body node req st with
      | Recv.fault => none
      | Recv.closed => some ([], st)
      | Recv.got (response, st1) =>
        (rpc_loop node rest st1).map (fun r => (response :: r.1, r.2))
    else some ([], st)

/-- One iteration of `stream_loop` when the next message is `msg`. -/
def stream_loop_body {σ : Type} (node : IPCNode σ) (msg : Option CppString) (st : σ) :
    Recv σ :=
  -- std::vector<char> buffer(1024 * 1024);
  -- int len = zmq_recv(stream_socket_, buffer.data(), buffer.size(), 0);
  let r := zmq_recv msg (zero_buffer (1024 * 1024)) (1024 * 1024)
  if r.1 < 0 then Recv.closed
  else
    match node.stream_cb_ with
    | some cb =>
      -- std::string data(buffer.data(), len); stream_cb_(data);
      match string_of_buffer r.2 r.1.toNat with
      | some data => Recv.got (cb data st)
      | none => Recv.fault
    | none => Recv.got st

/-- The method `IPCNode::stream_loop` run on the messages that arrive, in order: the
final application state; `none` on undefined behaviour. -/
def stream_loop {σ : Type} (node : IPCNode σ) : List (Option CppString) → σ → Option σ
  | [], st => some st
  | msg :: rest, st =>
    if node.running_ then
      match stream_loop_body node msg st with
      | Recv.fault => none
      | Recv.closed => some st
      | Recv.got st1 => stream_loop node rest st1
    else some st

/-! ## The worker lifecycle node (`src/core/service_node.hpp`) -/

/-- The virtual interface of `ServiceNode`, implemented by each worker. -/
structure Worker (σ : Type) where
  on_init : CppString → σ → Bool × σ
  on_process : CppString → σ → σ

/-- The fields of a `ServiceNode`. -/
structure ServiceNode (σ : Type) where
  ipc_ : IPCNode σ
  service_name_ : CppString
  my_stream_addr_ : CppString

/-- What a worker does to the outside while it registers. -/
inductive Event where
  /-- A call of `IPCNode::call(address, action, data)`. -/
  | rpc_call (address action data : CppString) : Event
  /-- A call of `std::this_thread::sleep_for(std::chrono::seconds(n))`. -/
  | sleep (seconds : Nat) : Event
  /-- A call of `start_stream_receiver(address, ...)`. -/
  | bind_stream (address : CppString) : Event
  deriving DecidableEq

/-- The literal `"ipc:///tmp/neura.rpc.broker"`. -/
def broker_addr : CppString := "ipc:///tmp/neura.rpc.broker".toList

/-- The test `resp.find("ipc://") != std::string::npos`. -/
def reply_accepted (resp : CppString) : Bool := (find resp "ipc://".toList).isSome

/-- The `while (true)` loop of `register_to_broker`, run against the transport of each
successive call: the reply recorded in `my_stream_addr_` and the calls and waits made.
The result is `none` when the listed attempts end before a reply is accepted (the loop
is still running) and when a call has undefined behaviour. -/
def register_loop (service_name_ : CppString) : List Transport → Option (CppString × List Event)
  | [] => none
  | env :: envs =>
    -- std::string resp = IPCNode::call(broker_addr, "register", service_name_);
    match call env broker_addr "register".toList service_name_ with
    | none => none
    | some resp =>
      if reply_accepted resp then
        -- my_stream_addr_ = resp; break;
        some (resp, [Event.rpc_call broker_addr "register".toList service_name_])
      else
        -- std::this_thread::sleep_for(std::chrono::seconds(2));
        (register_loop service_name_ envs).map (fun r =>
          (r.1, Event.rpc_call broker_addr "register".toList service_name_ ::
                  Event.sleep 2 :: r.2))

/-- The outcome of `register_to_broker`. -/
structure Registered (σ : Type) where
  /-- The field `my_stream_addr_` after the loop. -/
  my_stream_addr_ : CppString
  /-- The calls, waits and the bind made, in order. -/
  events : List Event
  /-- The node after `start_stream_receiver`; `none` is `exit(1)`. -/
  ipc_ : Option (IPCNode σ)

/-- The method `ServiceNode::register_to_broker`; `bind_rc` is the result of `zmq_bind`
in `start_stream_receiver`. -/
def register_to_broker {σ : Type} (w : Worker σ) (ipc_ : IPCNode σ)
    (service_name_ : CppString) (envs : List Transport) (bind_rc : Int) :
    Option (Registered σ) :=
  (register_loop service_name_ envs).map (fun r =>
    -- ipc_.start_stream_receiver(my_stream_addr_, [this](data) { this->on_process(data); });
    { my_stream_addr_ := r.1,
      events := r.2 ++ [Event.bind_stream r.1],
      ipc_ := start_stream_receiver ipc_ bind_rc r.1 w.on_process })

/-- The callback the constructor of `ServiceNode` registers under `"init"`. -/
def init_handler {σ : Type} (w : Worker σ) : RpcCallback σ := fun config st =>
  -- bool success = this->on_init(config); return success ? "OK" : "FAIL";
  let success := w.on_init config st
  ((if success.1 then "OK".toList else "FAIL".toList), success.2)

/-- The constructor `ServiceNode::ServiceNode`: `none` when registration does not
complete or the process exits. -/
def ServiceNode.new {σ : Type} (w : Worker σ) (service_name : CppString)
    (envs : List Transport) (bind_rc : Int) : Option (ServiceNode σ) :=
  match register_to_broker w IPCNode.new service_name envs bind_rc with
  | none => none
  | some r =>
    match r.ipc_ with
    | none => none
    | some ipc =>
      some { ipc_ := register_rpc ipc "init".toList (init_handler w),
             service_name_ := service_name,
             my_stream_addr_ := r.my_stream_addr_ }


/-- A worker for the examples: `on_init` succeeds on `"cfg-ok"` only, and both methods
record the payloads they are invoked with. -/
def recording_worker : Worker (List CppString) where
  on_init := fun config log => (decide (config = "cfg-ok".toList), log ++ [config])
  on_process := fun data log => log ++ [data]

/-! ## Decimal rendering -/

theorem digitChar_toNat {d : Nat} (h : d < 10) : (Nat.digitChar d).toNat = d + 48 := by
  interval_cases d <;> rfl

theorem map_digitChar_inj : ∀ (l1 l2 : List Nat), (∀ x ∈ l1, x < 10) → (∀ x ∈ l2, x < 10) →
    l1.map Nat.digitChar = l2.map Nat.digitChar → l1 = l2
  | [], [], _, _, _ => rfl
  | [], _ :: _, _, _, h => by simp at h
  | _ :: _, [], _, _, h => by simp at h
  | a :: l1, b :: l2, h1, h2, h => by
    simp only [List.map_cons, List.cons.injEq] at h
    have ha : a < 10 := h1 a (List.mem_cons_self _ _)
    have hb : b < 10 := h2 b (List.mem_cons_self _ _)
    have hab : a = b := by
      have := congrArg Char.toNat h.1
      rw [digitChar_toNat ha, digitChar_toNat hb] at this
      omega
    have ih := map_digitChar_inj l1 l2 (fun x hx => h1 x (List.mem_cons_of_mem _ hx))
      (fun x hx => h2 x (List.mem_cons_of_mem _ hx)) h.2
    rw [hab, ih]

theorem decimal_ne_zero_digit {n : Nat} (hn : n ≠ 0) : decimal n ≠ ['0'] := by
  intro h
  simp only [decimal, if_neg hn] at h
  have h2 : (Nat.digits 10 n).map Nat.digitChar = [0].map Nat.digitChar := by
    have := congrArg List.reverse h
    simpa using this
  have h3 := map_digitChar_inj _ _ (fun x hx => Nat.digits_lt_base (by norm_num) hx)
    (by simp) h2
  have h4 := Nat.ofDigits_digits 10 n
  rw [h3] at h4
  simp at h4
  exact hn h4.symm

theorem decimal_injective : Function.Injective decimal := by
  intro a b h
  by_cases ha : a = 0
  · by_cases hb : b = 0
    · rw [ha, hb]
    · exfalso
      rw [ha] at h
      exact decimal_ne_zero_digit hb h.symm
  · by_cases hb : b = 0
    · exfalso
      rw [hb] at h
      exact decimal_ne_zero_digit ha h
    · simp only [decimal, if_neg ha, if_neg hb] at h
      have h2 := List.reverse_injective h
      have h3 := map_digitChar_inj _ _ (fun x hx => Nat.digits_lt_base (by norm_num) hx)
        (fun x hx => Nat.digits_lt_base (by norm_num) hx) h2
      exact Nat.digits.injective 10 h3

theorem decimal_no_minus (n : Nat) : ∀ c ∈ decimal n, c ≠ '-' := by
  intro c hc
  unfold decimal at hc
  split at hc
  · simp at hc
    rw [hc]; decide
  · simp only [List.mem_reverse, List.mem_map] at hc
    obtain ⟨d, hd, rfl⟩ := hc
    have hd10 : d < 10 := Nat.digits_lt_base (by norm_num) hd
    intro h
    have := congrArg Char.toNat h
    rw [digitChar_toNat hd10] at this
    have h0 : ('-' : Char).toNat = 45 := rfl
    omega

theorem decimal_ne_nil (n : Nat) : decimal n ≠ [] := by
  unfold decimal
  split
  · simp
  · rename_i h
    simp [Nat.digits_eq_nil_iff_eq_zero, h]

theorem to_string_injective : Function.Injective to_string := by
  intro i j h
  unfold to_string at h
  by_cases hi : i < 0 <;> by_cases hj : j < 0
  · simp only [if_pos hi, if_pos hj, List.cons.injEq, true_and] at h
    have := decimal_injective h
    omega
  · simp only [if_pos hi, if_neg hj] at h
    exact absurd rfl (decimal_no_minus j.toNat '-' (by rw [← h]; simp))
  · simp only [if_neg hi, if_pos hj] at h
    exact absurd rfl (decimal_no_minus i.toNat '-' (by rw [h]; simp))
  · simp only [if_neg hi, if_neg hj] at h
    have := decimal_injective h
    omega

/-! ## 32-bit arithmetic -/

theorem wrap_int_of_range {z : Int} (h1 : INT_MIN ≤ z) (h2 : z ≤ INT_MAX) : wrap_int z = z := by
  unfold INT_MIN at h1; unfold INT_MAX at h2; unfold wrap_int; omega

theorem wrap_int_inj_window {a b : Int} (h : wrap_int a = wrap_int b)
    (hab : a - b < 4294967296) (hba : b - a < 4294967296) : a = b := by
  unfold wrap_int at h; omega

theorem wrap_int_add_wrap (a c : Int) : wrap_int (wrap_int a + c) = wrap_int (a + c) := by
  unfold wrap_int; omega

theorem wrap_int_idem (z : Int) : wrap_int (wrap_int z) = wrap_int z := by
  unfold wrap_int; omega

/-! ## Unordered maps -/

theorem UMap.find_nil {β : Type} (k : CppString) : UMap.find ([] : UMap β) k = none := rfl

theorem UMap.find_cons {β : Type} (k1 : CppString) (v1 : β) (m : UMap β) (k : CppString) :
    UMap.find ((k1, v1) :: m) k = if k1 = k then some v1 else UMap.find m k := rfl

theorem UMap.assign_nil {β : Type} (k : CppString) (v : β) :
    UMap.assign ([] : UMap β) k v = [(k, v)] := rfl

theorem UMap.assign_cons {β : Type} (k1 : CppString) (v1 : β) (m : UMap β) (k : CppString)
    (v : β) :
    UMap.assign ((k1, v1) :: m) k v =
      if k1 = k then (k, v) :: m else (k1, v1) :: UMap.assign m k v := rfl

theorem UMap.keys_nil {β : Type} : UMap.keys ([] : UMap β) = [] := rfl

theorem UMap.keys_cons {β : Type} (k1 : CppString) (v1 : β) (m : UMap β) :
    UMap.keys ((k1, v1) :: m) = k1 :: UMap.keys m := rfl

theorem UMap.find_assign_self {β : Type} (m : UMap β) (k : CppString) (v : β) :
    UMap.find (UMap.assign m k v) k = some v := by
  induction m with
  | nil => rw [UMap.assign_nil, UMap.find_cons, if_pos rfl]
  | cons e m ih =>
    obtain ⟨k1, v1⟩ := e
    rw [UMap.assign_cons]
    by_cases h : k1 = k
    · rw [if_pos h, UMap.find_cons, if_pos rfl]
    · rw [if_neg h, UMap.find_cons, if_neg h, ih]

theorem UMap.find_assign_other {β : Type} (m : UMap β) (k k2 : CppString) (v : β)
    (hne : k2 ≠ k) : UMap.find (UMap.assign m k v) k2 = UMap.find m k2 := by
  induction m with
  | nil => rw [UMap.assign_nil, UMap.find_cons, if_neg hne.symm]
  | cons e m ih =>
    obtain ⟨k1, v1⟩ := e
    rw [UMap.assign_cons]
    by_cases h : k1 = k
    · rw [if_pos h, UMap.find_cons, UMap.find_cons, if_neg hne.symm,
        if_neg (fun e => hne (e.symm.trans h))]
    · rw [if_neg h, UMap.find_cons, UMap.find_cons, ih]

theorem UMap.assign_assign {β : Type} (m : UMap β) (k : CppString) (v1 v2 : β) :
    UMap.assign (UMap.assign m k v1) k v2 = UMap.assign m k v2 := by
  induction m with
  | nil => rw [UMap.assign_nil, UMap.assign_cons, if_pos rfl, UMap.assign_nil]
  | cons e m ih =>
    obtain ⟨k1, w⟩ := e
    rw [UMap.assign_cons, UMap.assign_cons]
    by_cases h : k1 = k
    · rw [if_pos h, if_pos h, UMap.assign_cons, if_pos rfl]
    · rw [if_neg h, if_neg h, UMap.assign_cons, if_neg h, ih]

theorem UMap.keys_assign {β : Type} (m : UMap β) (k : CppString) (v : β) :
    UMap.keys (UMap.assign m k v) =
      if k ∈ UMap.keys m then UMap.keys m else UMap.keys m ++ [k] := by
  induction m with
  | nil =>
    rw [UMap.assign_nil, UMap.keys_cons, UMap.keys_nil, if_neg (List.not_mem_nil k)]
    rfl
  | cons e m ih =>
    obtain ⟨k1, w⟩ := e
    rw [UMap.assign_cons, UMap.keys_cons]
    by_cases h : k1 = k
    · rw [if_pos h, UMap.keys_cons, if_pos (by rw [h]; exact List.mem_cons_self _ _), h]
    · rw [if_neg h, UMap.keys_cons, ih]
      by_cases hm : k ∈ UMap.keys m
      · rw [if_pos hm, if_pos (List.mem_cons_of_mem _ hm)]
      · rw [if_neg hm, if_neg (by
          intro hc
          rcases List.mem_cons.1 hc with hc | hc
          · exact h hc.symm
          · exact hm hc)]
        rfl

theorem UMap.keys_nodup_assign {β : Type} (m : UMap β) (k : CppString) (v : β)
    (h : (UMap.keys m).Nodup) : (UMap.keys (UMap.assign m k v)).Nodup := by
  rw [UMap.keys_assign]
  by_cases hk : k ∈ UMap.keys m
  · rw [if_pos hk]; exact h
  · rw [if_neg hk]
    refine List.Nodup.append h (List.nodup_singleton k) ?_
    intro x hx hx2
    rw [List.mem_singleton] at hx2
    exact hk (hx2 ▸ hx)

theorem UMap.find_eq_none_iff {β : Type} (m : UMap β) (k : CppString) :
    UMap.find m k = none ↔ k ∉ UMap.keys m := by
  induction m with
  | nil => rw [UMap.find_nil, UMap.keys_nil]; exact ⟨fun _ => List.not_mem_nil k, fun _ => rfl⟩
  | cons e m ih =>
    obtain ⟨k1, w⟩ := e
    rw [UMap.find_cons, UMap.keys_cons, List.mem_cons]
    by_cases h : k1 = k
    · rw [if_pos h]
      constructor
      · intro hc; cases hc
      · intro hc; exact absurd (Or.inl h.symm) hc
    · rw [if_neg h, ih]
      constructor
      · intro hm hc
        rcases hc with hc | hc
        · exact h hc.symm
        · exact hm hc
      · intro hm hc
        exact hm (Or.inr hc)

/-! ## The broker -/

theorem handle_registration_addr (b : ServiceBroker) (n : CppString) :
    (handle_registration b n).1 = stream_addr_base ++ to_string b.next_worker_id_ := rfl

theorem handle_registration_next (b : ServiceBroker) (n : CppString) :
    (handle_registration b n).2.next_worker_id_ = wrap_int (b.next_worker_id_ + 1) := rfl

theorem handle_registration_routes (b : ServiceBroker) (n : CppString) :
    (handle_registration b n).2.routes_ =
      b.routes_.assign n (stream_addr_base ++ to_string b.next_worker_id_) := rfl

theorem register_all_cons (b : ServiceBroker) (n : CppString) (ns : List CppString) :
    register_all b (n :: ns) = register_all (handle_registration b n).2 ns := rfl

theorem register_all_next (names : List CppString) :
    ∀ b : ServiceBroker, wrap_int b.next_worker_id_ = b.next_worker_id_ →
      (register_all b names).next_worker_id_ =
        wrap_int (b.next_worker_id_ + (names.length : Int)) := by
  induction names with
  | nil => intro b hb; simpa [register_all] using hb.symm
  | cons n ns ih =>
    intro b _
    have h1 := ih (handle_registration b n).2 (by
      rw [handle_registration_next]; exact wrap_int_idem _)
    simp only [register_all, List.length_cons, Nat.cast_add, Nat.cast_one]
    rw [h1, handle_registration_next, wrap_int_add_wrap]
    congr 1
    omega

theorem new_next_in_range :
    wrap_int ServiceBroker.new.next_worker_id_ = ServiceBroker.new.next_worker_id_ := by
  decide

theorem allocated_ids_eq (names : List CppString) :
    ∀ b : ServiceBroker, wrap_int b.next_worker_id_ = b.next_worker_id_ →
      allocated_ids b names =
        (List.range names.length).map (fun i : Nat => wrap_int (b.next_worker_id_ + (i : Int))) := by
  induction names with
  | nil => intro b _; simp [allocated_ids, registrations]
  | cons n ns ih =>
    intro b hb
    have h1 := ih (handle_registration b n).2 (by
      rw [handle_registration_next]; exact wrap_int_idem _)
    simp only [allocated_ids] at h1 ⊢
    simp only [registrations, List.map_cons, List.length_cons, List.range_succ_eq_map,
      List.map_map, h1, handle_registration_next]
    simp only [Nat.cast_zero, add_zero, hb, List.cons.injEq, List.map_cons, true_and]
    apply List.map_congr_left
    intro i _
    simp only [Function.comp, wrap_int_add_wrap, Nat.cast_succ]
    congr 1
    omega

theorem allocated_addrs_eq (names : List CppString) :
    ∀ b : ServiceBroker,
      allocated_addrs b names =
        (allocated_ids b names).map (fun id => stream_addr_base ++ to_string id) := by
  induction names with
  | nil => intro b; simp [allocated_addrs, allocated_ids, registrations]
  | cons n ns ih =>
    intro b
    have h1 := ih (handle_registration b n).2
    simp only [allocated_addrs, allocated_ids] at h1 ⊢
    simp [registrations, h1, handle_registration_addr]

theorem stream_addr_injective :
    Function.Injective (fun id : Int => stream_addr_base ++ to_string id) := by
  intro a b h
  exact to_string_injective (List.append_cancel_left h)

theorem to_string_100 : to_string 100 = "100".toList := by
  simp [to_string, decimal]; decide

theorem to_string_101 : to_string 101 = "101".toList := by
  simp [to_string, decimal]; decide

theorem to_string_150 : to_string 150 = "150".toList := by
  simp [to_string, decimal]; decide

theorem to_string_100000 : to_string 100000 = "100000".toList := by
  simp [to_string, decimal]; decide

theorem register_all_find_other (k : CppString) (names : List CppString) :
    ∀ b : ServiceBroker, (∀ x ∈ names, x ≠ k) →
      UMap.find (register_all b names).routes_ k = UMap.find b.routes_ k := by
  induction names with
  | nil => intro b _; rfl
  | cons n ns ih =>
    intro b h
    have h1 := ih (handle_registration b n).2 (fun x hx => h x (List.mem_cons_of_mem _ hx))
    have hn : k ≠ n := fun e => h n (List.mem_cons_self _ _) e.symm
    simp only [register_all]
    rw [h1, handle_registration_routes, UMap.find_assign_other _ _ _ _ hn]

theorem register_all_find_origin (names : List CppString) :
    ∀ (b : ServiceBroker) (k v : CppString),
      wrap_int b.next_worker_id_ = b.next_worker_id_ →
      UMap.find (register_all b names).routes_ k = some v →
      UMap.find b.routes_ k = some v ∨
        ∃ j : Nat, j < names.length ∧
          v = stream_addr_base ++ to_string (wrap_int (b.next_worker_id_ + (j : Int))) := by
  induction names with
  | nil => intro b k v _ h; exact Or.inl h
  | cons n ns ih =>
    intro b k v hb h
    simp only [register_all] at h
    rcases ih (handle_registration b n).2 k v (by
      rw [handle_registration_next]; exact wrap_int_idem _) h with h1 | ⟨j, hj, hv⟩
    · rw [handle_registration_routes] at h1
      by_cases hk : k = n
      · subst hk
        rw [UMap.find_assign_self] at h1
        refine Or.inr ⟨0, by simp, ?_⟩
        simp only [Nat.cast_zero, add_zero, hb]
        exact (Option.some.inj h1).symm
      · rw [UMap.find_assign_other _ _ _ _ hk] at h1
        exact Or.inl h1
    · refine Or.inr ⟨j + 1, by simpa using hj, ?_⟩
      rw [hv, handle_registration_next, wrap_int_add_wrap]
      have e : b.next_worker_id_ + 1 + (j : Int) = b.next_worker_id_ + ((j + 1 : Nat) : Int) := by
        push_cast
        omega
      rw [e]

/-! ## Claims about the broker -/

/-- C1 (amended): on a freshly constructed broker, for every sequence of `k` earlier
registrations with `k ≤ 2147483547` (so that `100 + k` is an `int`) and every service
name, the next call of `handle_registration` returns `"ipc:///tmp/neura.stream."`
followed by the decimal rendering of `100 + k`; identities 100, 101, 150 and 100000 give
the addresses ending in `100`, `101`, `150` and `100000`; and for sequences of any
length the address returned depends only on the number of earlier calls. -/
theorem handle_registration_address (pre : List CppString) (n : CppString)
    (hk : pre.length ≤ 2147483547) :
    (handle_registration (register_all ServiceBroker.new pre) n).1 =
        stream_addr_base ++ to_string (100 + (pre.length : Int)) ∧
      (∀ (r : UMap CppString) (m : CppString),
        (handle_registration { next_worker_id_ := 100, routes_ := r } m).1 =
            "ipc:///tmp/neura.stream.100".toList ∧
        (handle_registration { next_worker_id_ := 101, routes_ := r } m).1 =
            "ipc:///tmp/neura.stream.101".toList ∧
        (handle_registration { next_worker_id_ := 150, routes_ := r } m).1 =
            "ipc:///tmp/neura.stream.150".toList ∧
        (handle_registration { next_worker_id_ := 100000, routes_ := r } m).1 =
            "ipc:///tmp/neura.stream.100000".toList) ∧
      (∀ (pre1 pre2 : List CppString) (n1 n2 : CppString), pre1.length = pre2.length →
        (handle_registration (register_all ServiceBroker.new pre1) n1).1 =
          (handle_registration (register_all ServiceBroker.new pre2) n2).1) := by
  refine ⟨?_, ?_, ?_⟩
  · rw [handle_registration_addr, register_all_next pre _ new_next_in_range]
    have h100 : ServiceBroker.new.next_worker_id_ = 100 := rfl
    rw [h100, wrap_int_of_range]
    · unfold INT_MIN; omega
    · unfold INT_MAX; omega
  · intro r m
    simp only [handle_registration_addr, to_string_100, to_string_101, to_string_150,
      to_string_100000]
    exact ⟨by decide, by decide, by decide, by decide⟩
  · intro pre1 pre2 n1 n2 h
    rw [handle_registration_addr, handle_registration_addr,
      register_all_next pre1 _ new_next_in_range, register_all_next pre2 _ new_next_in_range, h]

/-- C1, witness: the third registration on a fresh broker, after `"llm"` and `"tts"`. -/
theorem handle_registration_address_witness :
    (handle_registration (register_all ServiceBroker.new ["llm".toList, "tts".toList])
        "llm".toList).1 = stream_addr_base ++ to_string (100 + (2 : Nat)) :=
  (handle_registration_address ["llm".toList, "tts".toList] "llm".toList (by decide)).1

/-- C1, counterexample: after 2147483548 registrations the counter has wrapped around,
and the next address is not the base followed by the rendering of `100 + 2147483548`. -/
theorem handle_registration_address_wraps :
    (handle_registration
        (register_all ServiceBroker.new (List.replicate 2147483548 "llm".toList))
        "llm".toList).1 = stream_addr_base ++ to_string (-2147483648) ∧
      (handle_registration
        (register_all ServiceBroker.new (List.replicate 2147483548 "llm".toList))
        "llm".toList).1 ≠ stream_addr_base ++ to_string (100 + ((2147483548 : Nat) : Int)) := by
  have h : (handle_registration
        (register_all ServiceBroker.new (List.replicate 2147483548 "llm".toList))
        "llm".toList).1 = stream_addr_base ++ to_string (-2147483648) := by
    rw [handle_registration_addr, register_all_next _ _ new_next_in_range,
      List.length_replicate]
    have h100 : ServiceBroker.new.next_worker_id_ = 100 := rfl
    rw [h100]
    have : wrap_int (100 + ((2147483548 : Nat) : Int)) = -2147483648 := by
      unfold wrap_int; norm_num
    rw [this]
  refine ⟨h, ?_⟩
  rw [h]
  intro hc
  have := to_string_injective (List.append_cancel_left hc)
  norm_num at this

/-- C2 (amended): for every sequence of `N` registration calls on a fresh broker, with
any service names: when `N ≤ 4294967296` the identities allocated are pairwise distinct
and so are the addresses returned; when `N ≤ 2147483548` each identity is at least 100
and is one more than the identity of the previous call. -/
theorem registrations_distinct (names : List CppString) :
    (names.length ≤ 4294967296 →
      (allocated_ids ServiceBroker.new names).Nodup ∧
      (allocated_addrs ServiceBroker.new names).Nodup) ∧
    (names.length ≤ 2147483548 →
      (∀ x ∈ allocated_ids ServiceBroker.new names, 100 ≤ x) ∧
      List.Chain' (fun a b : Int => b = a + 1) (allocated_ids ServiceBroker.new names)) := by
  have hids := allocated_ids_eq names _ new_next_in_range
  have h100 : ServiceBroker.new.next_worker_id_ = 100 := rfl
  rw [h100] at hids
  constructor
  · intro hN
    have hnd : (allocated_ids ServiceBroker.new names).Nodup := by
      rw [hids]
      refine List.Nodup.map_on ?_ (List.nodup_range _)
      intro x hx y hy hxy
      rw [List.mem_range] at hx hy
      have := wrap_int_inj_window hxy (by omega) (by omega)
      omega
    refine ⟨hnd, ?_⟩
    rw [allocated_addrs_eq]
    exact List.Nodup.map stream_addr_injective hnd
  · intro hN
    have hval : ∀ i : Nat, i < names.length → wrap_int (100 + (i : Int)) = 100 + (i : Int) := by
      intro i hi
      apply wrap_int_of_range
      · unfold INT_MIN; omega
      · unfold INT_MAX; omega
    constructor
    · intro x hx
      rw [hids, List.mem_map] at hx
      obtain ⟨i, hi, rfl⟩ := hx
      rw [List.mem_range] at hi
      rw [hval i hi]
      omega
    · rw [hids, List.chain'_map]
      cases hlen : names.length with
      | zero => simp
      | succ k =>
        rw [List.chain'_range_succ]
        intro m hm
        rw [hval m (by omega), hval m.succ (by omega)]
        push_cast
        omega

/-- C2, witness: three registrations, two of them of the same name. -/
theorem registrations_distinct_witness :
    ((allocated_ids ServiceBroker.new ["llm".toList, "tts".toList, "llm".toList]).Nodup ∧
      (allocated_addrs ServiceBroker.new ["llm".toList, "tts".toList, "llm".toList]).Nodup) ∧
    ((∀ x ∈ allocated_ids ServiceBroker.new ["llm".toList, "tts".toList, "llm".toList],
        100 ≤ x) ∧
      List.Chain' (fun a b : Int => b = a + 1)
        (allocated_ids ServiceBroker.new ["llm".toList, "tts".toList, "llm".toList])) :=
  ⟨(registrations_distinct ["llm".toList, "tts".toList, "llm".toList]).1 (by decide),
   (registrations_distinct ["llm".toList, "tts".toList, "llm".toList]).2 (by decide)⟩

/-- C2, counterexample: the identity allocated by call 2147483549 is below 100, and among
4294967297 calls two receive the same identity. -/
theorem registrations_wrap :
    (∃ x ∈ allocated_ids ServiceBroker.new (List.replicate 2147483549 "llm".toList),
        x < 100) ∧
      ¬ (allocated_ids ServiceBroker.new
          (List.replicate 4294967297 "llm".toList)).Nodup := by
  have h100 : ServiceBroker.new.next_worker_id_ = 100 := rfl
  constructor
  · refine ⟨-2147483648, ?_, by norm_num⟩
    rw [allocated_ids_eq _ _ new_next_in_range, List.length_replicate, h100, List.mem_map]
    refine ⟨2147483548, List.mem_range.2 (by norm_num), ?_⟩
    unfold wrap_int
    norm_num
  · rw [allocated_ids_eq _ _ new_next_in_range, List.length_replicate, h100]
    intro hnd
    have := List.inj_on_of_nodup_map hnd (List.mem_range.2 (by norm_num : 0 < 4294967297))
      (List.mem_range.2 (by norm_num : 4294967296 < 4294967297))
      (by unfold wrap_int; norm_num)
    norm_num at this

/-- C3 (amended): for every broker state and every service name `n`, after
`handle_registration(n)` returns address `a` the registry maps `n` to `a`, the mapping of
every other name is what it was before, and no key other than `n` is added or removed;
and when the state was reached from a fresh broker by fewer than 4294967296 registration
calls, `a` differs from the address `n` was mapped to before. -/
theorem handle_registration_frame (b : ServiceBroker) (n : CppString) :
    UMap.find (handle_registration b n).2.routes_ n = some (handle_registration b n).1 ∧
    (∀ m : CppString, m ≠ n →
      UMap.find (handle_registration b n).2.routes_ m = UMap.find b.routes_ m) ∧
    UMap.keys (handle_registration b n).2.routes_ =
      (if n ∈ UMap.keys b.routes_ then UMap.keys b.routes_ else UMap.keys b.routes_ ++ [n]) ∧
    (∀ pre : List CppString, b = register_all ServiceBroker.new pre →
      pre.length < 4294967296 →
      ∀ old : CppString, UMap.find b.routes_ n = some old →
        (handle_registration b n).1 ≠ old) := by
  refine ⟨?_, ?_, ?_, ?_⟩
  · rw [handle_registration_routes, handle_registration_addr, UMap.find_assign_self]
  · intro m hm
    rw [handle_registration_routes, UMap.find_assign_other _ _ _ _ hm]
  · rw [handle_registration_routes, UMap.keys_assign]
  · intro pre hb hlen old hold heq
    subst hb
    have h100 : ServiceBroker.new.next_worker_id_ = 100 := rfl
    rcases register_all_find_origin pre _ n old new_next_in_range hold with h | ⟨j, hj, hv⟩
    · exact absurd h (by simp [ServiceBroker.new, UMap.find])
    · rw [handle_registration_addr, register_all_next pre _ new_next_in_range, hv, h100] at heq
      have h2 := to_string_injective (List.append_cancel_left heq)
      have h3 := wrap_int_inj_window h2 (by omega) (by omega)
      omega

/-- C3, witness: re-registration of `"llm"` after `"llm"` and `"tts"` were registered. -/
theorem handle_registration_frame_witness :
    ∀ old : CppString,
      UMap.find (register_all ServiceBroker.new ["llm".toList, "tts".toList]).routes_
          "llm".toList = some old →
        (handle_registration (register_all ServiceBroker.new ["llm".toList, "tts".toList])
          "llm".toList).1 ≠ old :=
  (handle_registration_frame (register_all ServiceBroker.new ["llm".toList, "tts".toList])
    "llm".toList).2.2.2 ["llm".toList, "tts".toList] rfl (by decide)

/-- C3, counterexample: `"llm"` is registered, then `"tts"` 4294967295 times; the
re-registration of `"llm"` returns the address `"llm"` is already mapped to. -/
theorem handle_registration_same_address :
    ∃ old : CppString,
      UMap.find (register_all ServiceBroker.new
          ("llm".toList :: List.replicate 4294967295 "tts".toList)).routes_
        "llm".toList = some old ∧
      (handle_registration (register_all ServiceBroker.new
          ("llm".toList :: List.replicate 4294967295 "tts".toList)) "llm".toList).1 = old := by
  refine ⟨stream_addr_base ++ to_string 100, ?_, ?_⟩
  · rw [register_all_cons, register_all_find_other]
    · rw [handle_registration_routes, UMap.find_assign_self]
      rfl
    · intro x hx
      rw [List.eq_of_mem_replicate hx]
      decide
  · rw [handle_registration_addr, register_all_next _ _ new_next_in_range]
    have h100 : ServiceBroker.new.next_worker_id_ = 100 := rfl
    rw [h100, List.length_cons, List.length_replicate]
    have : wrap_int (100 + ((4294967295 + 1 : Nat) : Int)) = 100 := by
      unfold wrap_int; norm_num
    rw [this]

/-! ## The transport -/

theorem zero_buffer_length (n : Nat) : (zero_buffer n).length = n := by
  unfold zero_buffer
  exact List.length_replicate n _

theorem zmq_recv_fits (m : CppString) (cap n : Nat) (hm : m.length ≤ n) :
    (zmq_recv (some m) (zero_buffer cap) n).1 = (m.length : Int) ∧
      string_of_buffer (zmq_recv (some m) (zero_buffer cap) n).2 m.length = some m := by
  refine ⟨rfl, ?_⟩
  have h1 : (zmq_recv (some m) (zero_buffer cap) n).2 =
      m ++ (zero_buffer cap).drop m.length := by
    show m.take n ++ (zero_buffer cap).drop (min m.length n) = _
    rw [List.take_of_length_le hm, Nat.min_eq_left hm]
  rw [h1]
  unfold string_of_buffer
  rw [if_pos (by rw [List.length_append]; omega), List.take_left']
  rfl

theorem call_connect_failed (env : Transport) (address action data : CppString)
    (h : env.connect_rc ≠ 0) :
    call env address action data = some "ERROR: Connect failed".toList := by
  unfold call
  rw [if_pos h]

theorem call_recv_failed (env : Transport) (address action data : CppString)
    (h : env.connect_rc = 0) (hr : env.reply = none) :
    call env address action data = some "ERROR: Recv failed".toList := by
  unfold call
  rw [if_neg (by simp [h]), hr]
  rfl

theorem call_reply_fits (env : Transport) (address action data r : CppString)
    (h : env.connect_rc = 0) (hr : env.reply = some r) (hlen : r.length ≤ 4095) :
    call env address action data = some r := by
  unfold call
  rw [if_neg (by simp [h]), hr]
  have hf := zmq_recv_fits r 4096 (4096 - 1) (by omega)
  simp only [hf.1]
  rw [if_neg (by omega), Int.toNat_ofNat, hf.2]

/-- C8 (amended): `IPCNode::call` returns, for every address, action and payload, exactly
`"ERROR: Connect failed"` when the connect step fails, exactly `"ERROR: Recv failed"`
when the connect succeeds and receiving the reply fails, and otherwise, when the reply
frame has at most 4095 characters, exactly the reply frame; neither sentinel contains
`"ipc://"`. -/
theorem call_result (env : Transport) (address action data : CppString) :
    (env.connect_rc ≠ 0 →
      call env address action data = some "ERROR: Connect failed".toList) ∧
    (env.connect_rc = 0 → env.reply = none →
      call env address action data = some "ERROR: Recv failed".toList) ∧
    (∀ r : CppString, env.connect_rc = 0 → env.reply = some r → r.length ≤ 4095 →
      call env address action data = some r) ∧
    find "ERROR: Connect failed".toList "ipc://".toList = none ∧
    find "ERROR: Recv failed".toList "ipc://".toList = none ∧
    starts_with "ipc://".toList "ERROR: Connect failed".toList = false ∧
    starts_with "ipc://".toList "ERROR: Recv failed".toList = false :=
  ⟨call_connect_failed env address action data,
   call_recv_failed env address action data,
   fun r h hr hlen => call_reply_fits env address action data r h hr hlen,
   by decide, by decide, by decide, by decide⟩

/-- C8, witness: the three outcomes of a call to the broker. -/
theorem call_result_witness :
    call { connect_rc := -1, reply := none } broker_addr "register".toList "llm".toList =
        some "ERROR: Connect failed".toList ∧
    call { connect_rc := 0, reply := none } broker_addr "register".toList "llm".toList =
        some "ERROR: Recv failed".toList ∧
    call { connect_rc := 0, reply := some "ipc:///tmp/neura.stream.100".toList }
        broker_addr "register".toList "llm".toList =
      some "ipc:///tmp/neura.stream.100".toList :=
  ⟨(call_result { connect_rc := -1, reply := none } broker_addr "register".toList
      "llm".toList).1 (by decide),
   (call_result { connect_rc := 0, reply := none } broker_addr "register".toList
      "llm".toList).2.1 rfl rfl,
   (call_result { connect_rc := 0, reply := some "ipc:///tmp/neura.stream.100".toList }
      broker_addr "register".toList "llm".toList).2.2.1 _ rfl rfl (by decide)⟩

/-- C8, counterexample: a reply frame of 4096 characters `a` is returned as 4095
characters `a` followed by a NUL character. -/
theorem call_truncates_reply :
    call { connect_rc := 0, reply := some (List.replicate 4096 'a') }
        broker_addr "register".toList "llm".toList =
      some (List.replicate 4095 'a' ++ [Char.ofNat 0]) ∧
    call { connect_rc := 0, reply := some (List.replicate 4096 'a') }
        broker_addr "register".toList "llm".toList ≠
      some (List.replicate 4096 'a') := by
  have h : call { connect_rc := 0, reply := some (List.replicate 4096 'a') }
        broker_addr "register".toList "llm".toList =
      some (List.replicate 4095 'a' ++ [Char.ofNat 0]) := by
    unfold call
    rw [if_neg (by simp)]
    have hb : (zmq_recv (some (List.replicate 4096 'a')) (zero_buffer 4096) (4096 - 1)).2 =
        List.replicate 4095 'a' ++ [Char.ofNat 0] := by
      show (List.replicate 4096 'a').take (4096 - 1) ++
        (zero_buffer 4096).drop (min (List.replicate 4096 'a').length (4096 - 1)) = _
      unfold zero_buffer
      rw [List.take_replicate, List.length_replicate, List.drop_replicate]
      rfl
    have hl : (zmq_recv (some (List.replicate 4096 'a')) (zero_buffer 4096) (4096 - 1)).1 =
        4096 := by
      show ((List.replicate 4096 'a').length : Int) = 4096
      rw [List.length_replicate]
      rfl
    simp only [hb, hl]
    rw [if_neg (by norm_num)]
    unfold string_of_buffer
    have hlen : (List.replicate 4095 'a' ++ [Char.ofNat 0]).length = 4096 := by
      rw [List.length_append, List.length_replicate]
      rfl
    have ht : Int.toNat 4096 = 4096 := rfl
    rw [ht, if_pos (le_of_eq hlen.symm), List.take_of_length_le (le_of_eq hlen)]
  refine ⟨h, ?_⟩
  rw [h]
  intro hc
  have h2 := Option.some.inj hc
  have e : List.replicate 4096 'a' = List.replicate 4095 'a' ++ ['a'] :=
    List.replicate_succ' 4095 'a'
  rw [e] at h2
  have h3 := List.append_cancel_left h2
  exact absurd h3 (by decide)

/-! ## The loops of the communication node -/

theorem recv_request_absent (a : CppString) (p : Option CppString) (ha : a.length ≤ 255) :
    recv_request { action := some a, more := false, payload := p } = Recv.got (a, []) := by
  have hf := zmq_recv_fits a 256 (256 - 1) (by omega)
  unfold recv_request
  simp only [hf.1]
  rw [if_neg (by omega), Int.toNat_ofNat, hf.2]
  rfl

theorem recv_request_payload (a p : CppString) (ha : a.length ≤ 255)
    (hp : p.length ≤ 1048576) :
    recv_request { action := some a, more := true, payload := some p } = Recv.got (a, p) := by
  have hf := zmq_recv_fits a 256 (256 - 1) (by omega)
  have hg := zmq_recv_fits p (1024 * 1024) (1024 * 1024) (by omega)
  unfold recv_request
  simp only [hf.1, hg.1]
  rw [if_neg (by omega)]
  simp only [Int.toNat_ofNat, hf.2, hg.2, if_true]
  by_cases h0 : (p.length : Int) > 0
  · simp only [if_true, h0]
  · have hnil : p = [] := by
      apply List.eq_nil_of_length_eq_zero
      omega
    subst hnil
    rfl

theorem rpc_loop_body_got {σ : Type} (node : IPCNode σ) (req : Request) (st : σ)
    (action data : CppString) (h : recv_request req = Recv.got (action, data)) :
    rpc_loop_body node req st = Recv.got (rpc_dispatch node.rpc_map_ action data st) := by
  unfold rpc_loop_body
  rw [h]

theorem rpc_loop_two {σ : Type} (node : IPCNode σ) (req1 req2 : Request) (st : σ)
    (a1 d1 a2 d2 : CppString) (hrun : node.running_ = true)
    (h1 : recv_request req1 = Recv.got (a1, d1))
    (h2 : recv_request req2 = Recv.got (a2, d2)) :
    rpc_loop node [req1, req2] st =
      some ([(rpc_dispatch node.rpc_map_ a1 d1 st).1,
             (rpc_dispatch node.rpc_map_ a2 d2 (rpc_dispatch node.rpc_map_ a1 d1 st).2).1],
            (rpc_dispatch node.rpc_map_ a2 d2 (rpc_dispatch node.rpc_map_ a1 d1 st).2).2) := by
  simp only [rpc_loop, hrun, if_true, rpc_loop_body_got node req1 st a1 d1 h1,
    rpc_loop_body_got node req2 _ a2 d2 h2, Option.map_some']

theorem rpc_dispatch_found {σ : Type} (m : UMap (RpcCallback σ)) (action data : CppString)
    (st : σ) (cb : RpcCallback σ) (h : UMap.find m action = some cb) :
    rpc_dispatch m action data st = cb data st := by
  unfold rpc_dispatch
  rw [h]

theorem rpc_dispatch_missing {σ : Type} (m : UMap (RpcCallback σ)) (action data : CppString)
    (st : σ) (h : UMap.find m action = none) :
    rpc_dispatch m action data st = ("ERROR: Action not found".toList, st) := by
  unfold rpc_dispatch
  rw [h]

/-- C9: for every payload of at most 1048576 characters (the empty payload and payloads
with NUL characters included), one message carrying it makes `stream_loop`, on a node whose
stream receiver is bound, invoke the callback once with exactly that payload; a callback
that appends to an accumulator ends with exactly the payload. -/
theorem stream_delivery {σ : Type} (node0 node : IPCNode σ) (address : CppString)
    (cb : StreamCallback σ) (payload : CppString) (st : σ)
    (hbound : start_stream_receiver node0 0 address cb = some node)
    (hlen : payload.length ≤ 1048576) :
    stream_loop_body node (some payload) st = Recv.got (cb payload st) ∧
    stream_loop node [some payload] st = some (cb payload st) ∧
    (∀ (n0 n1 : IPCNode CppString),
      start_stream_receiver n0 0 address (fun data acc => acc ++ data) = some n1 →
      stream_loop n1 [some payload] [] = some payload) := by
  have hf := zmq_recv_fits payload (1024 * 1024) (1024 * 1024) (by omega)
  have body : ∀ {τ : Type} (n0 n1 : IPCNode τ) (f : StreamCallback τ) (s : τ),
      start_stream_receiver n0 0 address f = some n1 →
      n1.running_ = true ∧ stream_loop_body n1 (some payload) s = Recv.got (f payload s) := by
    intro τ n0 n1 f s hb
    unfold start_stream_receiver at hb
    rw [if_neg (by simp)] at hb
    have hn := Option.some.inj hb
    subst hn
    refine ⟨rfl, ?_⟩
    unfold stream_loop_body
    simp only [hf.1]
    rw [if_neg (by omega), Int.toNat_ofNat, hf.2]
  refine ⟨(body node0 node cb st hbound).2, ?_, ?_⟩
  · simp only [stream_loop, (body node0 node cb st hbound).1, if_true,
      (body node0 node cb st hbound).2]
  · intro n0 n1 hb
    simp only [stream_loop, (body n0 n1 _ [] hb).1, if_true, (body n0 n1 _ [] hb).2,
      List.nil_append]

/-- C9, witness: the prompt the client pushes to the worker. -/
theorem stream_delivery_witness :
    stream_loop
        { rpc_socket_ := none, stream_socket_ := some "ipc:///tmp/neura.stream.100".toList,
          running_ := true, rpc_map_ := [],
          stream_cb_ := some (fun data acc => acc ++ data) }
        [some "Hello AI, who are you?".toList] [] =
      some "Hello AI, who are you?".toList :=
  (stream_delivery (IPCNode.new : IPCNode CppString) _ "ipc:///tmp/neura.stream.100".toList
    (fun data acc => acc ++ data) "Hello AI, who are you?".toList [] rfl (by decide)).2.1

/-- C4: for every handler table, every action with no handler in it and every payload (the
empty payload of an exchange without a payload frame included), the dispatch step of
`rpc_loop` produces the reply `"ERROR: Action not found"` and runs no callback (the
application state is unchanged); the loop goes on with the same table, so that a next
exchange whose action is registered is answered with the result of its handler. -/
theorem rpc_unknown_action {σ : Type} (node : IPCNode σ) (action data : CppString) (st : σ)
    (hfree : UMap.find node.rpc_map_ action = none) :
    rpc_dispatch node.rpc_map_ action data st = ("ERROR: Action not found".toList, st) ∧
    (∀ req : Request, recv_request req = Recv.got (action, data) →
      rpc_loop_body node req st = Recv.got ("ERROR: Action not found".toList, st)) ∧
    (∀ (req req2 : Request) (action2 data2 : CppString) (cb : RpcCallback σ),
      node.running_ = true →
      recv_request req = Recv.got (action, data) →
      recv_request req2 = Recv.got (action2, data2) →
      UMap.find node.rpc_map_ action2 = some cb →
      rpc_loop node [req, req2] st =
        some (["ERROR: Action not found".toList, (cb data2 st).1], (cb data2 st).2)) := by
  have hd := rpc_dispatch_missing node.rpc_map_ action data st hfree
  refine ⟨hd, ?_, ?_⟩
  · intro req hreq
    rw [rpc_loop_body_got node req st action data hreq, hd]
  · intro req req2 action2 data2 cb hrun h1 h2 hcb
    rw [rpc_loop_two node req req2 st action data action2 data2 hrun h1 h2, hd,
      rpc_dispatch_found node.rpc_map_ action2 data2 st cb hcb]

/-- C4, witness: a node with the `"init"` handler receives `"ping"` without a payload
frame, then `"init"` with payload `"cfg-ok"`. -/
theorem rpc_unknown_action_witness :
    rpc_loop
        { rpc_socket_ := some "ipc:///tmp/neura.rpc.llm".toList, stream_socket_ := none,
          running_ := true,
          rpc_map_ := [("init".toList, init_handler recording_worker)],
          stream_cb_ := none }
        [{ action := some "ping".toList, more := false, payload := none },
         { action := some "init".toList, more := true, payload := some "cfg-ok".toList }]
        [] =
      some (["ERROR: Action not found".toList, "OK".toList], ["cfg-ok".toList]) :=
  (rpc_unknown_action
    { rpc_socket_ := some "ipc:///tmp/neura.rpc.llm".toList, stream_socket_ := none,
      running_ := true,
      rpc_map_ := [("init".toList, init_handler recording_worker)],
      stream_cb_ := none }
    "ping".toList [] [] rfl).2.2
    { action := some "ping".toList, more := false, payload := none }
    { action := some "init".toList, more := true, payload := some "cfg-ok".toList }
    "init".toList "cfg-ok".toList (init_handler recording_worker) rfl
    (recv_request_absent "ping".toList none (by decide))
    (recv_request_payload "init".toList "cfg-ok".toList (by decide) (by decide))
    rfl

/-- C5: for every worker and every config payload `c`, the dispatch of action `"init"`
with payload `c` on a node that carries the handler `ServiceNode` installs runs `on_init`
once with `c` (the state after the dispatch is the state after `on_init(c)`) and replies
`"OK"` when `on_init(c)` returns true and `"FAIL"` when it returns false; the same holds
on the node the constructor of `ServiceNode` builds; and whatever the reply, the next
exchange is dispatched on the same handler table. -/
theorem init_round_trip {σ : Type} (w : Worker σ) (node : IPCNode σ) (c : CppString) (st : σ) :
    rpc_dispatch (register_rpc node "init".toList (init_handler w)).rpc_map_
        "init".toList c st =
      ((if (w.on_init c st).1 then "OK".toList else "FAIL".toList), (w.on_init c st).2) ∧
    ((w.on_init c st).1 = true →
      (rpc_dispatch (register_rpc node "init".toList (init_handler w)).rpc_map_
        "init".toList c st).1 = "OK".toList) ∧
    ((w.on_init c st).1 = false →
      (rpc_dispatch (register_rpc node "init".toList (init_handler w)).rpc_map_
        "init".toList c st).1 = "FAIL".toList) ∧
    (∀ (name : CppString) (envs : List Transport) (bind_rc : Int) (sn : ServiceNode σ),
      ServiceNode.new w name envs bind_rc = some sn →
      rpc_dispatch sn.ipc_.rpc_map_ "init".toList c st =
        ((if (w.on_init c st).1 then "OK".toList else "FAIL".toList), (w.on_init c st).2)) ∧
    (∀ (req req2 : Request) (action2 data2 : CppString),
      node.running_ = true →
      recv_request req = Recv.got ("init".toList, c) →
      recv_request req2 = Recv.got (action2, data2) →
      rpc_loop (register_rpc node "init".toList (init_handler w)) [req, req2] st =
        some ([(if (w.on_init c st).1 then "OK".toList else "FAIL".toList),
               (rpc_dispatch (register_rpc node "init".toList (init_handler w)).rpc_map_
                  action2 data2 (w.on_init c st).2).1],
              (rpc_dispatch (register_rpc node "init".toList (init_handler w)).rpc_map_
                  action2 data2 (w.on_init c st).2).2)) := by
  have hd : ∀ m : UMap (RpcCallback σ),
      rpc_dispatch (UMap.assign m "init".toList (init_handler w)) "init".toList c st =
        ((if (w.on_init c st).1 then "OK".toList else "FAIL".toList), (w.on_init c st).2) := by
    intro m
    rw [rpc_dispatch_found _ _ _ _ _ (UMap.find_assign_self m _ _)]
    rfl
  refine ⟨hd _, ?_, ?_, ?_, ?_⟩
  · intro h
    show (rpc_dispatch (UMap.assign node.rpc_map_ _ _) _ c st).1 = _
    rw [hd, h]
    rfl
  · intro h
    show (rpc_dispatch (UMap.assign node.rpc_map_ _ _) _ c st).1 = _
    rw [hd, h]
    rfl
  · intro name envs bind_rc sn hsn
    unfold ServiceNode.new at hsn
    split at hsn
    · cases hsn
    · split at hsn
      · cases hsn
      · have e := Option.some.inj hsn
        subst e
        exact hd _
  · intro req req2 action2 data2 hrun h1 h2
    have hr : (register_rpc node "init".toList (init_handler w)).running_ = true := hrun
    rw [rpc_loop_two _ req req2 st _ c action2 data2 hr h1 h2]
    have e : rpc_dispatch (register_rpc node "init".toList (init_handler w)).rpc_map_
        "init".toList c st =
      ((if (w.on_init c st).1 then "OK".toList else "FAIL".toList), (w.on_init c st).2) :=
      hd _
    rw [e]

/-- C5, witness: `"init"` with `"cfg-bad"`, then `"init"` with `"cfg-ok"`, on a node that
carries the handler of a worker whose `on_init` accepts `"cfg-ok"` only. -/
theorem init_round_trip_witness :
    rpc_loop
        (register_rpc
          { rpc_socket_ := some "ipc:///tmp/neura.rpc.llm".toList, stream_socket_ := none,
            running_ := true, rpc_map_ := [], stream_cb_ := none }
          "init".toList (init_handler recording_worker))
        [{ action := some "init".toList, more := true, payload := some "cfg-bad".toList },
         { action := some "init".toList, more := true, payload := some "cfg-ok".toList }]
        [] =
      some (["FAIL".toList, "OK".toList], ["cfg-bad".toList, "cfg-ok".toList]) :=
  (init_round_trip recording_worker
    { rpc_socket_ := some "ipc:///tmp/neura.rpc.llm".toList, stream_socket_ := none,
      running_ := true, rpc_map_ := [], stream_cb_ := none }
    "cfg-bad".toList []).2.2.2.2
    { action := some "init".toList, more := true, payload := some "cfg-bad".toList }
    { action := some "init".toList, more := true, payload := some "cfg-ok".toList }
    "init".toList "cfg-ok".toList rfl
    (recv_request_payload "init".toList "cfg-bad".toList (by decide) (by decide))
    (recv_request_payload "init".toList "cfg-ok".toList (by decide) (by decide))

theorem register_rpc_map {σ : Type} (node : IPCNode σ) (a : CppString) (h : RpcCallback σ) :
    (register_rpc node a h).rpc_map_ = UMap.assign node.rpc_map_ a h := rfl

theorem registered_keys_nodup {σ : Type} (regs : List (CppString × RpcCallback σ)) :
    ∀ node : IPCNode σ, (UMap.keys node.rpc_map_).Nodup →
      (UMap.keys (regs.foldl (fun n r => register_rpc n r.1 r.2) node).rpc_map_).Nodup := by
  induction regs with
  | nil => intro node h; exact h
  | cons r rs ih =>
    intro node h
    rw [List.foldl_cons]
    apply ih
    rw [register_rpc_map]
    exact UMap.keys_nodup_assign _ _ _ h

/-- C10: for every node, action `a` and handlers `h1`, `h2`, `register_rpc(a, h1)` followed
by `register_rpc(a, h2)` yields the node `register_rpc(a, h2)` alone yields, registering
the same handler twice is registering it once, after `register_rpc(a, h)` a dispatch of
`a` with payload `p` is `h(p)`, the handler of every other action is unchanged, and the
table holds at most one handler per action name: `register_rpc` keeps the keys distinct,
and they are distinct after any sequence of registrations on a new node. -/
theorem register_rpc_replaces {σ : Type} (node : IPCNode σ) (a : CppString)
    (h1 h2 : RpcCallback σ) :
    register_rpc (register_rpc node a h1) a h2 = register_rpc node a h2 ∧
    register_rpc (register_rpc node a h1) a h1 = register_rpc node a h1 ∧
    (∀ (p : CppString) (st : σ),
      rpc_dispatch (register_rpc node a h1).rpc_map_ a p st = h1 p st) ∧
    (∀ a2 : CppString, a2 ≠ a →
      UMap.find (register_rpc node a h1).rpc_map_ a2 = UMap.find node.rpc_map_ a2) ∧
    (∀ (a2 p : CppString) (st : σ), a2 ≠ a →
      rpc_dispatch (register_rpc node a h1).rpc_map_ a2 p st =
        rpc_dispatch node.rpc_map_ a2 p st) ∧
    ((UMap.keys node.rpc_map_).Nodup →
      (UMap.keys (register_rpc node a h1).rpc_map_).Nodup) ∧
    (∀ regs : List (CppString × RpcCallback σ),
      (UMap.keys (regs.foldl (fun n r => register_rpc n r.1 r.2)
        (IPCNode.new : IPCNode σ)).rpc_map_).Nodup) := by
  have twice : ∀ g1 g2 : RpcCallback σ,
      register_rpc (register_rpc node a g1) a g2 = register_rpc node a g2 := by
    intro g1 g2
    unfold register_rpc
    simp only [UMap.assign_assign]
  refine ⟨twice h1 h2, twice h1 h1, ?_, ?_, ?_, ?_, ?_⟩
  · intro p st
    rw [register_rpc_map, rpc_dispatch_found _ _ _ _ _ (UMap.find_assign_self _ _ _)]
  · intro a2 hne
    rw [register_rpc_map, UMap.find_assign_other _ _ _ _ hne]
  · intro a2 p st hne
    unfold rpc_dispatch
    rw [register_rpc_map, UMap.find_assign_other _ _ _ _ hne]
  · intro hnd
    rw [register_rpc_map]
    exact UMap.keys_nodup_assign _ _ _ hnd
  · intro regs
    exact registered_keys_nodup regs _ List.nodup_nil

/-- C10, witness: the handler of `"init"` on a node that has a handler for `"register"` is
replaced; the keys stay distinct and `"register"` keeps its handler. -/
theorem register_rpc_replaces_witness :
    (UMap.keys (register_rpc
        { rpc_socket_ := none, stream_socket_ := none, running_ := true,
          rpc_map_ := [("register".toList, fun name (log : List CppString) =>
            ("ipc:///tmp/neura.stream.100".toList, log ++ [name]))],
          stream_cb_ := none }
        "init".toList (init_handler recording_worker)).rpc_map_).Nodup ∧
    rpc_dispatch (register_rpc
        { rpc_socket_ := none, stream_socket_ := none, running_ := true,
          rpc_map_ := [("register".toList, fun name (log : List CppString) =>
            ("ipc:///tmp/neura.stream.100".toList, log ++ [name]))],
          stream_cb_ := none }
        "init".toList (init_handler recording_worker)).rpc_map_
        "register".toList "llm".toList [] =
      ("ipc:///tmp/neura.stream.100".toList, ["llm".toList]) :=
  ⟨(register_rpc_replaces
      { rpc_socket_ := none, stream_socket_ := none, running_ := true,
        rpc_map_ := [("register".toList, fun name (log : List CppString) =>
          ("ipc:///tmp/neura.stream.100".toList, log ++ [name]))],
        stream_cb_ := none }
      "init".toList (init_handler recording_worker) (init_handler recording_worker)).2.2.2.2.2.1
      (by decide),
   (register_rpc_replaces
      { rpc_socket_ := none, stream_socket_ := none, running_ := true,
        rpc_map_ := [("register".toList, fun name (log : List CppString) =>
          ("ipc:///tmp/neura.stream.100".toList, log ++ [name]))],
        stream_cb_ := none }
      "init".toList (init_handler recording_worker)
      (init_handler recording_worker)).2.2.2.2.1 "register".toList "llm".toList []
      (by decide)⟩

/-! ## Registration of a worker -/

theorem find_of_starts_with (pat s : CppString) (h : starts_with pat s = true) :
    find s pat = some 0 := by
  cases s with
  | nil => unfold find; rw [if_pos h]
  | cons c s => unfold find; rw [if_pos h]

theorem reply_accepted_of_address (b : ServiceBroker) (n : CppString) :
    reply_accepted (handle_registration b n).1 = true := by
  unfold reply_accepted
  rw [find_of_starts_with]
  · rfl
  · rw [handle_registration_addr]
    unfold starts_with
    rw [List.isPrefixOf_iff_prefix]
    exact ⟨"/tmp/neura.stream.".toList ++ to_string b.next_worker_id_, rfl⟩

theorem register_loop_retry (name : CppString) (env : Transport) (envs : List Transport)
    (resp : CppString)
    (hc : call env broker_addr "register".toList name = some resp)
    (hr : reply_accepted resp = false) :
    register_loop name (env :: envs) =
      (register_loop name envs).map (fun r =>
        (r.1, Event.rpc_call broker_addr "register".toList name :: Event.sleep 2 :: r.2)) := by
  simp only [register_loop, hc, hr]
  rfl

theorem register_loop_accept (name : CppString) (env : Transport) (envs : List Transport)
    (resp : CppString)
    (hc : call env broker_addr "register".toList name = some resp)
    (hr : reply_accepted resp = true) :
    register_loop name (env :: envs) =
      some (resp, [Event.rpc_call broker_addr "register".toList name]) := by
  simp only [register_loop, hc, hr]
  rfl

theorem register_loop_converges (name addr : CppString) (ok : Transport)
    (rest : List Transport)
    (hok : call ok broker_addr "register".toList name = some addr)
    (hacc : reply_accepted addr = true) :
    ∀ fails : List Transport,
      (∀ e ∈ fails, ∃ resp : CppString,
        call e broker_addr "register".toList name = some resp ∧
          reply_accepted resp = false) →
      register_loop name (fails ++ ok :: rest) =
        some (addr,
          fails.flatMap (fun _ =>
            [Event.rpc_call broker_addr "register".toList name, Event.sleep 2]) ++
          [Event.rpc_call broker_addr "register".toList name]) := by
  intro fails
  induction fails with
  | nil => intro _; exact register_loop_accept name ok rest addr hok hacc
  | cons e es ih =>
    intro h
    obtain ⟨resp, hc, hr⟩ := h e (List.mem_cons_self _ _)
    have h2 := ih (fun x hx => h x (List.mem_cons_of_mem _ hx))
    rw [List.cons_append, register_loop_retry name e _ resp hc hr, h2]
    rfl

theorem count_retry_events (name : CppString) (fails : List Transport) :
    (fails.flatMap (fun _ =>
      [Event.rpc_call broker_addr "register".toList name, Event.sleep 2])).count
        (Event.rpc_call broker_addr "register".toList name) = fails.length ∧
    (fails.flatMap (fun _ =>
      [Event.rpc_call broker_addr "register".toList name, Event.sleep 2])).count
        (Event.sleep 2) = fails.length := by
  induction fails with
  | nil => exact ⟨rfl, rfl⟩
  | cons e es ih =>
    simp only [List.flatMap_cons, List.cons_append, List.nil_append, List.count_cons,
      ih.1, ih.2, List.length_cons]
    simp

theorem first_address (n : CppString) :
    (handle_registration ServiceBroker.new n).1 = "ipc:///tmp/neura.stream.100".toList := by
  rw [handle_registration_addr]
  have h100 : ServiceBroker.new.next_worker_id_ = 100 := rfl
  rw [h100, to_string_100]
  decide

theorem recv_request_long_action :
    recv_request { action := some (List.replicate 256 'a'), more := false, payload := none } =
      Recv.got (List.replicate 255 'a' ++ [Char.ofNat 0], []) := by
  have hb : (zmq_recv (some (List.replicate 256 'a')) (zero_buffer 256) (256 - 1)).2 =
      List.replicate 255 'a' ++ [Char.ofNat 0] := by
    show (List.replicate 256 'a').take (256 - 1) ++
      (zero_buffer 256).drop (min (List.replicate 256 'a').length (256 - 1)) = _
    unfold zero_buffer
    rw [List.take_replicate, List.length_replicate, List.drop_replicate]
    rfl
  have hl : (zmq_recv (some (List.replicate 256 'a')) (zero_buffer 256) (256 - 1)).1 = 256 := by
    show ((List.replicate 256 'a').length : Int) = 256
    rw [List.length_replicate]
    rfl
  have hlen : (List.replicate 255 'a' ++ [Char.ofNat 0]).length = 256 := by
    rw [List.length_append, List.length_replicate]
    rfl
  have ht : Int.toNat 256 = 256 := rfl
  have hs : string_of_buffer (List.replicate 255 'a' ++ [Char.ofNat 0]) 256 =
      some (List.replicate 255 'a' ++ [Char.ofNat 0]) := by
    unfold string_of_buffer
    rw [if_pos (le_of_eq hlen.symm), List.take_of_length_le (le_of_eq hlen)]
  unfold recv_request
  generalize zmq_recv (some (List.replicate 256 'a')) (zero_buffer 256) (256 - 1) = r at hb hl
  obtain ⟨r1, r2⟩ := r
  dsimp only at hb hl ⊢
  subst hb hl
  rw [if_neg (by norm_num), ht, hs]
  rfl

/-- C6 (amended): for every worker, service name and `k`, when the first `k` calls of
`IPCNode::call` return one of `"ERROR: Connect failed"`, `"ERROR: Recv failed"` and
`"ERROR: Action not found"` and call `k + 1` returns an address issued by the broker's
`handle_registration`, `register_to_broker` leaves its loop after exactly `k + 1` calls
and `k` waits, each of 2 seconds, records that address unchanged in `my_stream_addr_` and
calls `start_stream_receiver` at it. When `zmq_bind` succeeds the node has its stream
receiver bound at that address with `on_process` as the callback, is running, and keeps
its control socket and handler table; when `zmq_bind` fails the process exits and no
receiver is bound. -/
theorem register_to_broker_converges {σ : Type} (w : Worker σ) (ipc : IPCNode σ)
    (name : CppString) (fails : List Transport) (ok : Transport) (rest : List Transport)
    (b : ServiceBroker) (registered : CppString) (bind_rc : Int)
    (hfail : ∀ e ∈ fails,
      call e broker_addr "register".toList name = some "ERROR: Connect failed".toList ∨
      call e broker_addr "register".toList name = some "ERROR: Recv failed".toList ∨
      call e broker_addr "register".toList name = some "ERROR: Action not found".toList)
    (hok : call ok broker_addr "register".toList name =
      some (handle_registration b registered).1) :
    ∃ r : Registered σ,
      register_to_broker w ipc name (fails ++ ok :: rest) bind_rc = some r ∧
      r.my_stream_addr_ = (handle_registration b registered).1 ∧
      r.events =
        fails.flatMap (fun _ =>
          [Event.rpc_call broker_addr "register".toList name, Event.sleep 2]) ++
        [Event.rpc_call broker_addr "register".toList name,
         Event.bind_stream (handle_registration b registered).1] ∧
      r.events.count (Event.rpc_call broker_addr "register".toList name) = fails.length + 1 ∧
      r.events.count (Event.sleep 2) = fails.length ∧
      (∀ s : Nat, Event.sleep s ∈ r.events → s = 2) ∧
      (bind_rc = 0 →
        r.ipc_ = some { rpc_socket_ := ipc.rpc_socket_,
                        stream_socket_ := some (handle_registration b registered).1,
                        running_ := true,
                        rpc_map_ := ipc.rpc_map_,
                        stream_cb_ := some w.on_process }) ∧
      (bind_rc ≠ 0 → r.ipc_ = none) := by
  have hloop := register_loop_converges name _ ok rest hok
    (reply_accepted_of_address b registered) fails (by
      intro e he
      rcases hfail e he with h | h | h
      · exact ⟨_, h, by decide⟩
      · exact ⟨_, h, by decide⟩
      · exact ⟨_, h, by decide⟩)
  have hev : ∀ addr : CppString,
      (fails.flatMap (fun _ =>
          [Event.rpc_call broker_addr "register".toList name, Event.sleep 2]) ++
        [Event.rpc_call broker_addr "register".toList name]) ++ [Event.bind_stream addr] =
      fails.flatMap (fun _ =>
          [Event.rpc_call broker_addr "register".toList name, Event.sleep 2]) ++
        [Event.rpc_call broker_addr "register".toList name, Event.bind_stream addr] := by
    intro addr
    rw [List.append_assoc]
    rfl
  refine ⟨_, by unfold register_to_broker; rw [hloop]; rfl, rfl, hev _, ?_, ?_, ?_, ?_, ?_⟩
  · show List.count _ (_ ++ [Event.bind_stream _]) = _
    rw [hev, List.count_append, (count_retry_events name fails).1]
    simp [List.count_cons]
  · show List.count _ (_ ++ [Event.bind_stream _]) = _
    rw [hev, List.count_append, (count_retry_events name fails).2]
    simp [List.count_cons]
  · intro s hs
    have hs2 : Event.sleep s ∈ (fails.flatMap (fun _ =>
          [Event.rpc_call broker_addr "register".toList name, Event.sleep 2]) ++
        [Event.rpc_call broker_addr "register".toList name]) ++
          [Event.bind_stream (handle_registration b registered).1] := hs
    simp only [List.mem_append, List.mem_flatMap, List.mem_cons, List.mem_singleton,
      List.not_mem_nil, or_false, Event.sleep.injEq, reduceCtorEq, false_or] at hs2
    rcases hs2 with ⟨_, _, h⟩
    exact h
  · intro hrc
    subst hrc
    show start_stream_receiver ipc 0 (handle_registration b registered).1 w.on_process = _
    unfold start_stream_receiver
    rw [if_neg (by simp)]
  · intro hrc
    show start_stream_receiver ipc bind_rc (handle_registration b registered).1
      w.on_process = none
    unfold start_stream_receiver
    rw [if_pos hrc]

/-- C6, witness: the broker is unreachable for two attempts (one connect failure, one
receive failure), then answers with the first address it allocates, and `zmq_bind`
succeeds: three calls, two waits, and the receiver bound at the address with `on_process`
as its callback. -/
theorem register_to_broker_converges_witness :
    ∃ r : Registered (List CppString),
      register_to_broker recording_worker IPCNode.new "llm".toList
          [{ connect_rc := -1, reply := none }, { connect_rc := 0, reply := none },
           { connect_rc := 0, reply := some "ipc:///tmp/neura.stream.100".toList }] 0 =
        some r ∧
      r.my_stream_addr_ = "ipc:///tmp/neura.stream.100".toList ∧
      r.events.count (Event.rpc_call broker_addr "register".toList "llm".toList) = 3 ∧
      r.events.count (Event.sleep 2) = 2 ∧
      r.ipc_ = some { rpc_socket_ := none,
                      stream_socket_ := some (handle_registration ServiceBroker.new
                        "llm".toList).1,
                      running_ := true,
                      rpc_map_ := [],
                      stream_cb_ := some recording_worker.on_process } :=
  (register_to_broker_converges recording_worker IPCNode.new "llm".toList
    [{ connect_rc := -1, reply := none }, { connect_rc := 0, reply := none }]
    { connect_rc := 0, reply := some "ipc:///tmp/neura.stream.100".toList } []
    ServiceBroker.new "llm".toList 0
    (by
      intro e he
      rcases List.mem_cons.1 he with h | h
      · subst h
        exact Or.inl (call_connect_failed _ _ _ _ (by decide))
      · rw [List.mem_singleton] at h
        subst h
        exact Or.inr (Or.inl (call_recv_failed _ _ _ _ rfl rfl)))
    ((call_reply_fits _ _ _ _ _ rfl rfl (by decide)).trans
      (congrArg some (first_address "llm".toList).symm))).imp
    (fun _ h => ⟨h.1, h.2.1.trans (first_address "llm".toList), h.2.2.2.1, h.2.2.2.2.1,
      h.2.2.2.2.2.2.1 rfl⟩)

/-- C6, counterexample: the first call returns the address the broker issues, and
`zmq_bind` fails in `start_stream_receiver`: the address is recorded, and the process
exits with no stream receiver bound. -/
theorem register_to_broker_bind_fails :
    call { connect_rc := 0, reply := some "ipc:///tmp/neura.stream.100".toList }
        broker_addr "register".toList "llm".toList =
      some (handle_registration ServiceBroker.new "llm".toList).1 ∧
    ∃ r : Registered (List CppString),
      register_to_broker recording_worker IPCNode.new "llm".toList
          [{ connect_rc := 0, reply := some "ipc:///tmp/neura.stream.100".toList }] (-1) =
        some r ∧
      r.my_stream_addr_ = "ipc:///tmp/neura.stream.100".toList ∧
      r.ipc_ = none := by
  have hc : call { connect_rc := 0, reply := some "ipc:///tmp/neura.stream.100".toList }
        broker_addr "register".toList "llm".toList =
      some "ipc:///tmp/neura.stream.100".toList :=
    call_reply_fits _ _ _ _ _ rfl rfl (by decide)
  refine ⟨hc.trans (congrArg some (first_address "llm".toList).symm), ?_⟩
  have hl := register_loop_accept "llm".toList
    { connect_rc := 0, reply := some "ipc:///tmp/neura.stream.100".toList } []
    "ipc:///tmp/neura.stream.100".toList hc (by decide)
  refine ⟨{ my_stream_addr_ := "ipc:///tmp/neura.stream.100".toList,
            events := [Event.rpc_call broker_addr "register".toList "llm".toList,
                       Event.bind_stream "ipc:///tmp/neura.stream.100".toList],
            ipc_ := none }, ?_, rfl, rfl⟩
  unfold register_to_broker
  rw [hl]
  rfl

/-- C7 (amended): the registration loop of `register_to_broker` tests the reply for
`"ipc://"`, not for `"ERROR"`. Every reply that does not contain `"ipc://"`, among them
the three sentinels and every reply that contains `"ERROR"` and not `"ipc://"`, is a
failure: it is not recorded, and the loop waits 2 seconds and retries. Every reply that
contains `"ipc://"` is recorded as the stream address, whether or not it contains
`"ERROR"`. -/
theorem register_loop_tests_address (name : CppString) (env : Transport)
    (envs : List Transport) (reply : CppString)
    (hcall : call env broker_addr "register".toList name = some reply) :
    (find reply "ipc://".toList = none →
      register_loop name (env :: envs) =
        (register_loop name envs).map (fun r =>
          (r.1, Event.rpc_call broker_addr "register".toList name :: Event.sleep 2 :: r.2))) ∧
    (find reply "ipc://".toList ≠ none →
      register_loop name (env :: envs) =
        some (reply, [Event.rpc_call broker_addr "register".toList name])) ∧
    find "ERROR: Connect failed".toList "ipc://".toList = none ∧
    find "ERROR: Recv failed".toList "ipc://".toList = none ∧
    find "ERROR: Action not found".toList "ipc://".toList = none := by
  refine ⟨?_, ?_, by decide, by decide, by decide⟩
  · intro h
    exact register_loop_retry name env envs reply hcall (by
      unfold reply_accepted; rw [h]; rfl)
  · intro h
    exact register_loop_accept name env envs reply hcall (by
      unfold reply_accepted
      cases hf : find reply "ipc://".toList with
      | none => exact absurd hf h
      | some _ => rfl)

/-- C7, witness: the reply `"ERROR: Connect failed"` of an unreachable broker, followed by
an address. -/
theorem register_loop_tests_address_witness :
    register_loop "llm".toList
        [{ connect_rc := -1, reply := none },
         { connect_rc := 0, reply := some "ipc:///tmp/neura.stream.100".toList }] =
      (register_loop "llm".toList
        [{ connect_rc := 0, reply := some "ipc:///tmp/neura.stream.100".toList }]).map
        (fun r => (r.1, Event.rpc_call broker_addr "register".toList "llm".toList ::
          Event.sleep 2 :: r.2)) :=
  (register_loop_tests_address "llm".toList { connect_rc := -1, reply := none }
    [{ connect_rc := 0, reply := some "ipc:///tmp/neura.stream.100".toList }]
    "ERROR: Connect failed".toList (call_connect_failed _ _ _ _ (by decide))).1 (by decide)

/-- C7, counterexample: the reply `"ipc://ERROR"` contains `"ERROR"`, and the loop records
it as the stream address after one call and no wait. -/
theorem register_loop_accepts_error_reply :
    find "ipc://ERROR".toList "ERROR".toList = some 6 ∧
    register_loop "llm".toList [{ connect_rc := 0, reply := some "ipc://ERROR".toList }] =
      some ("ipc://ERROR".toList,
        [Event.rpc_call broker_addr "register".toList "llm".toList]) :=
  ⟨by decide,
   register_loop_accept "llm".toList _ [] "ipc://ERROR".toList
    (call_reply_fits _ _ _ _ _ rfl rfl (by decide)) (by decide)⟩

end NeuraFlow
